import Mathlib

/-!
Verification of the snapshot-repository model implemented by `rsnap2.py` and
`yarsnap.py` (repository `freitag-solutions/rsnap2`).

The development shallowly embeds the parts of the two Python files that the
specification talks about: the snapshot directory-name scheme
(`RsyncBackuperDest` / `Snapshot`), repository enumeration, the completion
rename, the backup-command construction, the command-line actions, and the
quoting of arguments that cross the shell transport of a remote repository.

Conventions used throughout:
* Python `datetime.datetime` values are records of `Nat` fields (`Datetime`).
* A raised Python exception is `Except.error`; `None` is `Option.none`.
* The filesystem under a repository root is a listing
  `List (String × Bool)` of entry names paired with "is a directory".
* Mutations are made observable as a trace of `FsOp` values.
-/

/-- Decimal digit character for `d < 10`; models the zero-padded decimal
digits emitted by `strftime`. -/
def digitChr (d : Nat) : Char := Char.ofNat (48 + d)

/-- Numeric value of a decimal digit character. -/
def digitVal (c : Char) : Nat := c.toNat - 48

/-- The `w` low-order decimal digits of `n`, most significant first.  For
`n < 10 ^ w` this is exactly the fixed-width zero-padded rendering that
`strftime` uses for `%Y` (w=4), `%m %d %H %M %S` (w=2) and `%f` (w=6). -/
def natToDigits : Nat → Nat → List Char
  | 0, _ => []
  | w + 1, n => natToDigits w (n / 10) ++ [digitChr (n % 10)]

/-- Value of a list of decimal digit characters, most significant first
(the `int(...)` conversions performed by `strptime`). -/
def digitsToNat (ds : List Char) : Nat :=
  ds.foldl (fun a c => a * 10 + digitVal c) 0

/-- Model of a Python `datetime.datetime` value: the seven components that
the directory-name format serializes. -/
structure Datetime where
  year : Nat
  month : Nat
  day : Nat
  hour : Nat
  minute : Nat
  second : Nat
  microsecond : Nat
deriving DecidableEq, Repr

/-- Gregorian leap-year rule (as used by Python's `datetime`). -/
def isLeapYear (y : Nat) : Bool :=
  y % 4 == 0 && (y % 100 != 0 || y % 400 == 0)

/-- Number of days in a month (as validated by the `datetime` constructor). -/
def daysInMonth (y mo : Nat) : Nat :=
  if mo == 2 then (if isLeapYear y then 29 else 28)
  else if mo == 4 || mo == 6 || mo == 9 || mo == 11 then 30
  else 31

/-- The field list of a datetime; Python compares `datetime` values by
comparing these component tuples lexicographically. -/
def Datetime.fields (t : Datetime) : List Nat :=
  [t.year, t.month, t.day, t.hour, t.minute, t.second, t.microsecond]

/-- Lexicographic order on lists of naturals (Python tuple comparison). -/
def natListLe : List Nat → List Nat → Bool
  | [], _ => true
  | _ :: _, [] => false
  | a :: as, b :: bs => a < b || (a == b && natListLe as bs)

/-- Model of `datetime <= datetime` in Python. -/
def Datetime.le (a b : Datetime) : Bool := natListLe a.fields b.fields

/-- A timestamp the Python code can both format and re-parse: the value is a
valid `datetime` (month, day-of-month, hour, minute, second, microsecond in
range) and its year is formattable, i.e. at least 1900 (Python 2's
`strftime` refuses earlier years) and at most 9999 (`datetime.MAXYEAR`). -/
def Datetime.valid (t : Datetime) : Prop :=
  1900 ≤ t.year ∧ t.year ≤ 9999 ∧
  1 ≤ t.month ∧ t.month ≤ 12 ∧
  1 ≤ t.day ∧ t.day ≤ daysInMonth t.year t.month ∧
  t.hour ≤ 23 ∧ t.minute ≤ 59 ∧ t.second ≤ 59 ∧ t.microsecond ≤ 999999

instance (t : Datetime) : Decidable t.valid := by
  unfold Datetime.valid; infer_instance

/-- `time.strftime("%Y-%m-%d_%H-%M-%S.%f")`: the fixed-width, lexically
sortable timestamp rendering used in `DEST_DIR_DATE_FORMAT` (identical in
`rsnap2.py` line 84 and `yarsnap.py` line 168). -/
def fmtTimeChars (t : Datetime) : List Char :=
  natToDigits 4 t.year ++ '-' ::
    (natToDigits 2 t.month ++ '-' ::
      (natToDigits 2 t.day ++ '_' ::
        (natToDigits 2 t.hour ++ '-' ::
          (natToDigits 2 t.minute ++ '-' ::
            (natToDigits 2 t.second ++ '.' :: natToDigits 6 t.microsecond)))))

/-- `RsyncBackuperDest._get_dirname` / `Snapshot._get_dirname`:
`DEST_DIR_FORMAT.format(time=strftime(...), dotflag="" if flag is None else
"." + flag)`.  The code only ever passes `flag=None` or `flag="partial"`. -/
def getDirname (t : Datetime) (flag : Option String) : String :=
  String.mk (fmtTimeChars t) ++ (match flag with | none => "" | some f => "." ++ f)

/-- `os.path.join` for POSIX paths restricted to two components, as used by
`RsyncBackuperDest.path` / `Snapshot.path`. -/
def osPathJoin (a b : String) : String :=
  if b.data.take 1 = ['/'] then b
  else if a = "" || a.data.getLast? = some '/' then a ++ b
  else a ++ "/" ++ b

/-- Model of `RsyncBackuperDest` (rsnap2.py) / `Snapshot` (yarsnap.py): the
directory name, the owning repository root, the parsed timestamp and the
completion flag. -/
structure Dest where
  dirname : String
  root : String
  time : Datetime
  is_complete : Bool
deriving DecidableEq, Repr

/-- `RsyncBackuperDest.path`: `os.path.join(self.root, self.dirname)`. -/
def Dest.path (d : Dest) : String := osPathJoin d.root d.dirname

/-- `RsyncBackuperDest.new` / `Snapshot.new`: a fresh Partial snapshot at
clock time `t` (`datetime.datetime.now()` is modelled as the argument). -/
def destNew (t : Datetime) (root : String) : Dest :=
  ⟨getDirname t (some "partial"), root, t, false⟩

/-- The seven digit groups and the separator character captured by the
`time` group of `DEST_DIR_RE`, i.e. the shape
`\d{4}-\d{2}-\d{2}_\d{2}-\d{2}-\d{2}.\d{6}` (note: the `.` before the
microseconds is an unescaped regex dot, so `sep` may be any character other
than a newline). -/
structure TimeGroup where
  y : List Char
  mo : List Char
  d : List Char
  h : List Char
  mi : List Char
  s : List Char
  sep : Char
  us : List Char
deriving DecidableEq, Repr

/-- Take exactly `k` leading decimal-digit characters (regex `\d{k}`). -/
def takeDigits : Nat → List Char → Option (List Char × List Char)
  | 0, cs => some ([], cs)
  | _ + 1, [] => none
  | k + 1, c :: cs =>
    if c.isDigit then (takeDigits k cs).map (fun p => (c :: p.1, p.2)) else none

/-- Consume one expected literal character. -/
def expectChar (c : Char) : List Char → Option (List Char)
  | [] => none
  | x :: xs => if x = c then some xs else none

/-- The `(?P<time>\d{4}-\d{2}-\d{2}_\d{2}-\d{2}-\d{2}.\d{6})` group of
`DEST_DIR_RE`, returning the captured components and the remaining input.
The unescaped `.` matches any character except `\n`. -/
def matchTimeGroup (cs0 : List Char) : Option (TimeGroup × List Char) := do
  let (y, cs1) ← takeDigits 4 cs0
  let cs2 ← expectChar '-' cs1
  let (mo, cs3) ← takeDigits 2 cs2
  let cs4 ← expectChar '-' cs3
  let (d, cs5) ← takeDigits 2 cs4
  let cs6 ← expectChar '_' cs5
  let (h, cs7) ← takeDigits 2 cs6
  let cs8 ← expectChar '-' cs7
  let (mi, cs9) ← takeDigits 2 cs8
  let cs10 ← expectChar '-' cs9
  let (s, cs11) ← takeDigits 2 cs10
  match cs11 with
  | [] => none
  | sep :: cs12 =>
    if sep = '\n' then none
    else do
      let (us, cs13) ← takeDigits 6 cs12
      some (⟨y, mo, d, h, mi, s, sep, us⟩, cs13)

/-- The characters of the optional `(?P<flag>\.partial)` marker group. -/
def markerChars : List Char := ".partial".data

/-- `DEST_DIR_RE.match(dirname)`:
`^(?P<time>...)(?P<flag>\.partial)?$`.  Returns the time group and
`is_complete` (true iff the flag group is absent).  Python's `$` also
matches just before a single trailing newline, which the model preserves. -/
def matchSnapshotName (cs : List Char) : Option (TimeGroup × Bool) :=
  match matchTimeGroup cs with
  | none => none
  | some (g, rest) =>
    if rest = [] || rest = ['\n'] then some (g, true)
    else if rest = markerChars || rest = markerChars ++ ['\n'] then some (g, false)
    else none

/-- `datetime.datetime.strptime(timeGroup, "%Y-%m-%d_%H-%M-%S.%f")` applied
to the regex's `time` group, with a Python exception modelled as `.error`.
The conditions combine the two stages that can raise `ValueError`:
* `_strptime`'s own sub-patterns: `%m` only matches two digits of value
  1..12, `%d` value 1..31, `%H` value 0..23, `%M` value 0..59, `%S` value
  0..61, and the literal `.` of the format must match `sep`;
* the `datetime` constructor: year at least 1 (`MINYEAR`), second at most
  59 (so 60 and 61 from `%S` still raise), day at most `daysInMonth`.
The microsecond group is six digits, hence always a legal microsecond. -/
def strptimeGroup (g : TimeGroup) : Except Unit Datetime :=
  let y := digitsToNat g.y
  let mo := digitsToNat g.mo
  let d := digitsToNat g.d
  let h := digitsToNat g.h
  let mi := digitsToNat g.mi
  let s := digitsToNat g.s
  let us := digitsToNat g.us
  if g.sep = '.' ∧ 1 ≤ y ∧ 1 ≤ mo ∧ mo ≤ 12 ∧ 1 ≤ d ∧ d ≤ 31 ∧
      d ≤ daysInMonth y mo ∧ h ≤ 23 ∧ mi ≤ 59 ∧ s ≤ 59 then
    .ok ⟨y, mo, d, h, mi, s, us⟩
  else
    .error ()

/-- Outcome of `RsyncBackuperDest.parse(dirname, root)` /
`Snapshot.existing(dirname, repository)`: the regex does not match
(`None` is returned), or `strptime` raises (`threw`), or a snapshot value
is produced. -/
inductive ParseOutcome where
  | notSnapshot : ParseOutcome
  | threw : ParseOutcome
  | parsed : Dest → ParseOutcome
deriving DecidableEq, Repr

/-- `RsyncBackuperDest.parse` (rsnap2.py lines 97-108) and the identical
`Snapshot.existing` (yarsnap.py lines 203-214). -/
def parseDest (dirname root : String) : ParseOutcome :=
  match matchSnapshotName dirname.data with
  | none => .notSnapshot
  | some (g, isComp) =>
    match strptimeGroup g with
    | .error _ => .threw
    | .ok t => .parsed ⟨dirname, root, t, isComp⟩

/-- Observable on-disk mutation emitted by an operation. -/
inductive FsOp where
  | rename : String → String → FsOp
deriving DecidableEq, Repr

/-- `os.path.exists(path) and os.path.isdir(path)` for an entry directly
under the repository root, over a listing of (name, is-directory) pairs. -/
def fsHasDir (fs : List (String × Bool)) (name : String) : Bool :=
  fs.any (fun e => e.1 == name && e.2)

/-- Effect of `os.rename(root/oldName, root/newName)` on the root listing. -/
def fsRename (fs : List (String × Bool)) (oldName newName : String) :
    List (String × Bool) :=
  fs.map (fun e => if e.1 == oldName then (newName, e.2) else e)

/-- `RsyncBackuper_Local._complete_dest` (rsnap2.py lines 151-163) /
`LocalSnapshotRepository.complete_dest` (yarsnap.py lines 113-125): verify
that the destination path exists and is a directory — raising
`Exception("destination doesn't exist! ...")`, the spec's
`DataIntegrityError`, if not — then rename the directory from its current
(Partial) name to `_get_dirname(dest.time)` (the Complete name).  The
in-memory flag updates of the Python object are not on-disk state; the
returned trace records the on-disk mutations performed. -/
def completeDest (fs : List (String × Bool)) (dest : Dest) :
    Except Unit (List (String × Bool) × List FsOp) :=
  if fsHasDir fs dest.dirname then
    let newName := getDirname dest.time none
    .ok (fsRename fs dest.dirname newName,
         [FsOp.rename (osPathJoin dest.root dest.dirname)
                      (osPathJoin dest.root newName)])
  else
    .error ()

/-- Names of the directory entries under the root, in listing order:
`[child for child in os.listdir(root) if os.path.isdir(join(root, child))]`. -/
def dirChildren (fs : List (String × Bool)) : List String :=
  (fs.filter (fun e => e.2)).map (fun e => e.1)

/-- Parse each child in order, keeping only successful parses; a parse that
raises propagates the exception (`.error`).  This is the loop body of
`RsyncBackuper_Local._list_previous_dests` (rsnap2.py lines 139-149) and
`LocalSnapshotRepository.list_snapshots` (yarsnap.py lines 101-111). -/
def parseChildren (root : String) : List String → Except Unit (List Dest)
  | [] => .ok []
  | e :: es =>
    match parseDest e root with
    | .threw => .error ()
    | .notSnapshot => parseChildren root es
    | .parsed d => (parseChildren root es).map (fun ds => d :: ds)

/-- Local enumeration: list the directories under the root and parse them. -/
def localListPrevious (fs : List (String × Bool)) (root : String) :
    Except Unit (List Dest) :=
  parseChildren root (dirChildren fs)

/-- The successful parses among the directory children, in listing order. -/
def okParses (fs : List (String × Bool)) (root : String) : List Dest :=
  (dirChildren fs).filterMap (fun name =>
    match parseDest name root with
    | .parsed d => some d
    | _ => none)

/-- Ordering used by `dests.sort(key=operator.attrgetter("time"),
reverse=True)`: `a` before `b` iff `b.time <= a.time` (descending; on equal
timestamps the original order is kept, as for Python's stable sort). -/
def destGE (a b : Dest) : Prop := Datetime.le b.time a.time = true

instance : DecidableRel destGE := fun _ _ => by
  unfold destGE; infer_instance

/-- `RsyncBackuper.__init__` / `YarsnapBackuper.__init__` (enumerate then
sort descending by timestamp).  Python's list sort is a stable sort, which
`List.insertionSort` with the same "greater or equal" test reproduces
exactly. -/
def initDests (fs : List (String × Bool)) (root : String) :
    Except Unit (List Dest) :=
  (localListPrevious fs root).map (fun ds => ds.insertionSort destGE)

/-- `RsyncBackuper_Remote._list_previous_dests` (rsnap2.py lines 193-200) /
`RemoteSnapshotRepository.list_snapshots` (yarsnap.py lines 133-140): for
every line of the remote `info` output, append the result of `parse`
unconditionally — including `None` for lines that do not parse. -/
def remoteListPrevious (remoteRoot : String) :
    List String → Except Unit (List (Option Dest))
  | [] => .ok []
  | line :: rest =>
    match parseDest line remoteRoot with
    | .threw => .error ()
    | .notSnapshot => (remoteListPrevious remoteRoot rest).map (fun ds => none :: ds)
    | .parsed d => (remoteListPrevious remoteRoot rest).map (fun ds => some d :: ds)

/-- Remote variant of `RsyncBackuper.__init__`: the sort's key function
`attrgetter("time")` raises `AttributeError` as soon as the list holds a
`None` entry (any unparsed `info` line), which the `.error` arm models. -/
def initDestsRemote (infoLines : List String) (remoteRoot : String) :
    Except Unit (List Dest) := do
  let ds ← remoteListPrevious remoteRoot infoLines
  if ds.any (fun o => o = none) then .error ()
  else .ok ((ds.filterMap id).insertionSort destGE)

/-- `RsyncBackuper.backup` (rsnap2.py lines 26-38): select the first
Complete snapshot of the (already descending-sorted) list as dedup base and
build the rsync parameter list `sources + [dest.path] + rsync_args`
followed, when a base exists, by `["--link-dest", base.path]`. -/
def rsnap2BackupCmd (dests : List Dest) (sources rsyncArgs : List String)
    (destPath : String) : List String :=
  let prev := if 0 < dests.length then dests.find? (fun x => x.is_complete) else none
  (sources ++ [destPath] ++ rsyncArgs) ++
    (match prev with
     | some p => ["--link-dest", p.path]
     | none => [])

/-- `YarsnapBackuper.backup` (yarsnap.py lines 44-57): same base selection;
the parameter order is `sources + [dest.hostPath]`, then the
`--link-dest` pair, then `rsync_args`. -/
def yarsnapBackupCmd (dests : List Dest) (sources rsyncArgs : List String)
    (destHostPath : String) : List String :=
  let prev := if 0 < dests.length then dests.find? (fun x => x.is_complete) else none
  (sources ++ [destHostPath]) ++
    (match prev with
     | some p => ["--link-dest", p.path]
     | none => []) ++ rsyncArgs

/-- Python's `str.startswith` on character lists. -/
def listStartsWith : List Char → List Char → Bool
  | _, [] => true
  | [], _ :: _ => false
  | c :: cs, p :: ps => c == p && listStartsWith cs ps

/-- `arg.startswith("--link-dest")`. -/
def startsWithLinkDest (arg : String) : Bool :=
  listStartsWith arg.data "--link-dest".data

/-- `BackupAction` of rsnap2.py (lines 223-229): reject `--link-dest` in
`--rsync-args` with a `ValueError` (the spec's `ConfigurationError`) before
the backuper is constructed and before any process is spawned; otherwise
enumerate (local repository) and return the rsync command that `backup`
then spawns.  `datetime.datetime.now()` is the parameter `t`. -/
def rsnap2BackupAction (fs : List (String × Bool)) (root : String)
    (sources rsyncArgs : List String) (t : Datetime) :
    Except Unit (List String) :=
  if rsyncArgs.any startsWithLinkDest then .error ()
  else do
    let dests ← initDests fs root
    .ok (rsnap2BackupCmd dests sources rsyncArgs
          (osPathJoin root (getDirname t (some "partial"))))

/-- `BackupAction` of yarsnap.py (lines 228-233): no option validation at
all — the backuper is constructed and `backup` runs directly, so every
user-supplied rsync argument reaches the spawned transfer command.  (For a
local repository `hostPath` equals `path`.) -/
def yarsnapBackupAction (fs : List (String × Bool)) (root : String)
    (sources rsyncArgs : List String) (t : Datetime) :
    Except Unit (List String) := do
  let dests ← initDests fs root
  .ok (yarsnapBackupCmd dests sources rsyncArgs
        (osPathJoin root (getDirname t (some "partial"))))

/-- `ServiceAction_MarkCompleted` (rsnap2.py lines 239-245, yarsnap.py
lines 244-252): build a local backuper/repository (which enumerates the
root), parse the given name, return exit code 1 when the parse returns
`None`, otherwise run the completion rename (whose failure propagates as an
exception).  On the success path rsnap2's handler falls off the end
(`exit(None)` = exit code 0); yarsnap returns 0 explicitly. -/
def serviceMarkCompleted (fs : List (String × Bool)) (root name : String) :
    Except Unit (Int × List FsOp) := do
  let _ ← initDests fs root
  match parseDest name root with
  | .notSnapshot => .ok (1, [])
  | .threw => .error ()
  | .parsed d => do
    let r ← completeDest fs d
    .ok (0, r.2)

/-- Single-quote character. -/
def squote : Char := Char.ofNat 39

/-- Double-quote character. -/
def dquote : Char := Char.ofNat 34

/-- Backslash character. -/
def bslash : Char := Char.ofNat 92

/-- Backquote character. -/
def bquote : Char := Char.ofNat 96

/-- Dollar character. -/
def dollar : Char := Char.ofNat 36

/-- The safe-character set of Python 2's `pipes.quote`:
`string.ascii_letters + string.digits + '@%_-+=:,./'`. -/
def safeChar (c : Char) : Bool :=
  c.isAlpha || c.isDigit || c == '@' || c == '%' || c == '_' || c == '-' ||
    c == '+' || c == '=' || c == ':' || c == ',' || c == '.' || c == '/'

/-- `file.replace("'", "'\"'\"'")` performed inside `pipes.quote`. -/
def quoteInner : List Char → List Char
  | [] => []
  | c :: cs =>
    (if c == squote then [squote, dquote, squote, dquote, squote] else [c]) ++
      quoteInner cs

/-- Python 2's `pipes.quote` (imported in yarsnap.py as `shell_quote`):
the empty string becomes `''`; a string of safe characters is returned
unchanged; anything else is wrapped in single quotes with embedded single
quotes rendered as `'"'"'`. -/
def shellQuote (s : String) : String :=
  if s.data = [] then String.mk [squote, squote]
  else if s.data.all safeChar then s
  else String.mk (squote :: (quoteInner s.data ++ [squote]))

/-- Characters that make a POSIX shell do something other than pass a plain
word to the command: command separators and redirections, subshells,
expansions, escapes.  (Glob characters, `#` and `~` are included since they
too change the argument the program receives.) -/
def isShellMeta (c : Char) : Bool :=
  c == ';' || c == '&' || c == '|' || c == '<' || c == '>' || c == '(' ||
    c == ')' || c == dollar || c == bquote || c == bslash || c == '\n' ||
    c == '*' || c == '?' || c == '[' || c == '#' || c == '~'

/-- Scanner mode of the remote shell: outside quotes, inside single quotes,
inside double quotes. -/
inductive ShMode where
  | norm : ShMode
  | insingle : ShMode
  | indouble : ShMode
deriving DecidableEq, Repr

/-- One pass of a POSIX shell reading a command line into words.
`cur` is the current word (reversed), `inw` whether a word is open, `acc`
the completed words.  The result is `none` when the line makes the shell do
anything beyond producing a plain word list (an unquoted metacharacter, an
expansion inside double quotes, or an unterminated quote) — i.e. exactly
the situations in which an attacker-controlled fragment could alter the
command structure. -/
def shSplitGo : List Char → ShMode → List Char → Bool → List String →
    Option (List String)
  | [], .norm, cur, inw, acc =>
    some (if inw then acc ++ [String.mk cur.reverse] else acc)
  | [], .insingle, _, _, _ => none
  | [], .indouble, _, _, _ => none
  | c :: cs, .norm, cur, inw, acc =>
    if c == ' ' || c == '\t' then
      shSplitGo cs .norm [] false (if inw then acc ++ [String.mk cur.reverse] else acc)
    else if c == squote then shSplitGo cs .insingle cur true acc
    else if c == dquote then shSplitGo cs .indouble cur true acc
    else if isShellMeta c then none
    else shSplitGo cs .norm (c :: cur) true acc
  | c :: cs, .insingle, cur, _, acc =>
    if c == squote then shSplitGo cs .norm cur true acc
    else shSplitGo cs .insingle (c :: cur) true acc
  | c :: cs, .indouble, cur, _, acc =>
    if c == dquote then shSplitGo cs .norm cur true acc
    else if c == dollar || c == bquote || c == bslash then none
    else shSplitGo cs .indouble (c :: cur) true acc

/-- The word list the remote shell passes to the remote program when given
the command line `s`, or `none` when the shell would do more than build a
word list. -/
def shSplit (s : String) : Option (List String) :=
  shSplitGo s.data .norm [] false []

/-- `" ".join(words)`. -/
def joinWords : List String → String
  | [] => ""
  | [a] => a
  | a :: rest => a ++ " " ++ joinWords rest

/-- The argument `" ".join([shell_quote(c) for c in cmd])` that
`RemoteSnapshotRepository._remote_yarsnap` (yarsnap.py line 157) hands to
the shell transport for re-interpretation by the remote shell. -/
def yarsnapRemoteArg (cmd : List String) : String :=
  joinWords (cmd.map shellQuote)

/-- The remote command string `"{} info {}".format(self.rsnap2,
self.remote_root)` built by `RsyncBackuper_Remote._list_previous_dests`
(rsnap2.py line 194) — plain interpolation, no quoting. -/
def rsnap2InfoRemoteCmd (prog root : String) : String :=
  prog ++ " info " ++ root

/-- The remote command string `"{} __service {} mark-completed {}".format(...)`
built by `RsyncBackuper_Remote._complete_dest` (rsnap2.py line 205). -/
def rsnap2MarkRemoteCmd (prog root dirname : String) : String :=
  prog ++ " __service " ++ root ++ " mark-completed " ++ dirname

/-- The time group that matching a formatted name captures: the digit
renderings of the seven fields with `'.'` as separator. -/
def timeGroupOf (t : Datetime) : TimeGroup :=
  ⟨natToDigits 4 t.year, natToDigits 2 t.month, natToDigits 2 t.day,
   natToDigits 2 t.hour, natToDigits 2 t.minute, natToDigits 2 t.second,
   '.', natToDigits 6 t.microsecond⟩

/-- The snapshot a name yields, `none` both when the name is rejected and
when parsing it would raise (used to state which entries enumeration may
legitimately return). -/
def parseOpt (root line : String) : Option Dest :=
  match parseDest line root with
  | .parsed d => some d
  | _ => none

/-- Decimal digit characters are digits. -/
theorem digitChr_isDigit {d : Nat} (h : d < 10) : (digitChr d).isDigit = true := by
  interval_cases d <;> decide

/-- `digitVal` inverts `digitChr` on digit values. -/
theorem digitVal_digitChr {d : Nat} (h : d < 10) : digitVal (digitChr d) = d := by
  interval_cases d <;> decide

/-- Every character of a fixed-width rendering is a digit. -/
theorem natToDigits_isDigit {w n : Nat} : ∀ c ∈ natToDigits w n, c.isDigit = true := by
  induction w generalizing n with
  | zero => intro c hc; simp [natToDigits] at hc
  | succ w ih =>
    intro c hc
    simp only [natToDigits, List.mem_append, List.mem_singleton] at hc
    rcases hc with hc | rfl
    · exact ih _ hc
    · exact digitChr_isDigit (Nat.mod_lt _ (by omega))

/-- A fixed-width rendering has the requested width. -/
theorem natToDigits_length (w n : Nat) : (natToDigits w n).length = w := by
  induction w generalizing n with
  | zero => rfl
  | succ w ih => simp [natToDigits, ih]

/-- `takeDigits` consumes exactly an all-digit block of the right length. -/
theorem takeDigits_exact : ∀ (ds rest : List Char),
    (∀ c ∈ ds, c.isDigit = true) →
    takeDigits ds.length (ds ++ rest) = some (ds, rest)
  | [], _, _ => rfl
  | c :: cs, rest, h => by
    have hc := h c (List.mem_cons_self c cs)
    have ih := takeDigits_exact cs rest (fun x hx => h x (List.mem_cons_of_mem _ hx))
    simp [takeDigits, hc, ih]

/-- `takeDigits` consumes exactly a fixed-width rendering. -/
theorem takeDigits_natToDigits (w n : Nat) (rest : List Char) :
    takeDigits w (natToDigits w n ++ rest) = some (natToDigits w n, rest) := by
  have h := takeDigits_exact (natToDigits w n) rest (fun c hc => natToDigits_isDigit c hc)
  rwa [natToDigits_length] at h

/-- Folding the digit-value step over a fixed-width rendering. -/
theorem digitsToNat_fold (w : Nat) : ∀ (n a : Nat), n < 10 ^ w →
    List.foldl (fun a c => a * 10 + digitVal c) a (natToDigits w n) =
      a * 10 ^ w + n := by
  induction w with
  | zero =>
    intro n a h
    simp only [natToDigits, List.foldl_nil, pow_zero]
    omega
  | succ w ih =>
    intro n a h
    simp only [natToDigits, List.foldl_append, List.foldl_cons, List.foldl_nil]
    rw [ih (n / 10) a (by
      have : n < 10 ^ w * 10 := by rw [← pow_succ]; exact h
      omega)]
    rw [digitVal_digitChr (Nat.mod_lt _ (by omega))]
    have hdm : 10 * (n / 10) + n % 10 = n := Nat.div_add_mod n 10
    calc (a * 10 ^ w + n / 10) * 10 + n % 10
        = a * (10 ^ w * 10) + (10 * (n / 10) + n % 10) := by ring
      _ = a * 10 ^ (w + 1) + n := by rw [← pow_succ, hdm]

/-- Round trip of the digit rendering: parsing the `w` digits of `n` gives
back `n` whenever `n` fits in `w` digits. -/
theorem digitsToNat_natToDigits {w n : Nat} (h : n < 10 ^ w) :
    digitsToNat (natToDigits w n) = n := by
  simpa [digitsToNat] using digitsToNat_fold w n 0 h

theorem expectChar_cons (c : Char) (xs : List Char) :
    expectChar c (c :: xs) = some xs := by
  simp [expectChar]

theorem matchTimeGroup_fmt (t : Datetime) (rest : List Char) :
    matchTimeGroup (fmtTimeChars t ++ rest) = some (timeGroupOf t, rest) := by
  simp only [fmtTimeChars, List.append_assoc, List.cons_append]
  unfold matchTimeGroup
  simp only [Option.bind_eq_bind, takeDigits_natToDigits, Option.some_bind,
    expectChar_cons]
  simp only [show ('.' : Char) = '\n' ↔ False by decide, if_false, iff_false]
  simp [timeGroupOf]

theorem matchSnapshotName_fmt_complete (t : Datetime) :
    matchSnapshotName (fmtTimeChars t) = some (timeGroupOf t, true) := by
  have h := matchTimeGroup_fmt t []
  rw [List.append_nil] at h
  simp [matchSnapshotName, h]

theorem matchSnapshotName_fmt_marker (t : Datetime) :
    matchSnapshotName (fmtTimeChars t ++ markerChars) = some (timeGroupOf t, false) := by
  have h := matchTimeGroup_fmt t markerChars
  simp only [matchSnapshotName, h]
  rw [if_neg (by decide), if_pos (by decide)]

theorem daysInMonth_le_31 (y mo : Nat) : daysInMonth y mo ≤ 31 := by
  unfold daysInMonth
  split_ifs <;> decide

theorem strptimeGroup_fmt (t : Datetime) (hv : t.valid) :
    strptimeGroup (timeGroupOf t) = .ok t := by
  obtain ⟨h1, h2, h3, h4, h5, h6, h7, h8, h9, h10⟩ := hv
  have hdim := daysInMonth_le_31 t.year t.month
  have hy : digitsToNat (natToDigits 4 t.year) = t.year :=
    digitsToNat_natToDigits (by omega)
  have hmo : digitsToNat (natToDigits 2 t.month) = t.month :=
    digitsToNat_natToDigits (by omega)
  have hd : digitsToNat (natToDigits 2 t.day) = t.day :=
    digitsToNat_natToDigits (by omega)
  have hh : digitsToNat (natToDigits 2 t.hour) = t.hour :=
    digitsToNat_natToDigits (by omega)
  have hmi : digitsToNat (natToDigits 2 t.minute) = t.minute :=
    digitsToNat_natToDigits (by omega)
  have hs : digitsToNat (natToDigits 2 t.second) = t.second :=
    digitsToNat_natToDigits (by omega)
  have hus : digitsToNat (natToDigits 6 t.microsecond) = t.microsecond :=
    digitsToNat_natToDigits (by omega)
  unfold strptimeGroup timeGroupOf
  simp only [hy, hmo, hd, hh, hmi, hs, hus]
  rw [if_pos ⟨trivial, by omega, by omega, by omega, by omega, by omega, h6,
    by omega, by omega, by omega⟩]

/-- Character list of a formatted Partial name: the time rendering followed
by the `.partial` marker. -/
theorem getDirname_marker_data (t : Datetime) :
    (getDirname t (some "partial")).data = fmtTimeChars t ++ markerChars := by
  show (String.mk (fmtTimeChars t) ++ ("." ++ "partial")).data = _
  rw [String.data_append]
  exact congrArg (fmtTimeChars t ++ ·) (by decide)

/-- Character list of a formatted Complete name: just the time rendering. -/
theorem getDirname_none_data (t : Datetime) :
    (getDirname t none).data = fmtTimeChars t := by
  show (String.mk (fmtTimeChars t) ++ "").data = _
  rw [String.data_append]
  simp

/-- Claim C2: for every valid timestamp `t` (microsecond precision) and
both completion states, parsing the directory name produced by the
formatter succeeds and returns exactly the timestamp and state that were
formatted: `parse(format(t, Partial)) = (t, Partial)` and
`parse(format(t, Complete)) = (t, Complete)`. -/
theorem c2_format_parse_roundtrip (t : Datetime) (root : String) (hv : t.valid) :
    parseDest (getDirname t (some "partial")) root =
      .parsed ⟨getDirname t (some "partial"), root, t, false⟩ ∧
    parseDest (getDirname t none) root =
      .parsed ⟨getDirname t none, root, t, true⟩ := by
  constructor
  · unfold parseDest
    rw [getDirname_marker_data, matchSnapshotName_fmt_marker]
    simp only [strptimeGroup_fmt t hv]
  · unfold parseDest
    rw [getDirname_none_data, matchSnapshotName_fmt_complete]
    simp only [strptimeGroup_fmt t hv]

/-- Witness for C2 at the concrete timestamp 2015-01-02 03:04:05.000006. -/
theorem c2_format_parse_roundtrip_witness :
    (Datetime.mk 2015 1 2 3 4 5 6).valid ∧
    (parseDest (getDirname ⟨2015, 1, 2, 3, 4, 5, 6⟩ (some "partial")) "/backups" =
      .parsed ⟨getDirname ⟨2015, 1, 2, 3, 4, 5, 6⟩ (some "partial"), "/backups",
        ⟨2015, 1, 2, 3, 4, 5, 6⟩, false⟩ ∧
    parseDest (getDirname ⟨2015, 1, 2, 3, 4, 5, 6⟩ none) "/backups" =
      .parsed ⟨getDirname ⟨2015, 1, 2, 3, 4, 5, 6⟩ none, "/backups",
        ⟨2015, 1, 2, 3, 4, 5, 6⟩, true⟩) :=
  ⟨by decide, c2_format_parse_roundtrip ⟨2015, 1, 2, 3, 4, 5, 6⟩ "/backups" (by decide)⟩

/-- Bind on an `ok` value reduces. -/
theorem except_ok_bind {ε α β : Type} (a : α) (f : α → Except ε β) :
    (Except.ok a : Except ε α) >>= f = f a := rfl

/-- Claim C3 counterexample: the directory name
`2015-13-01_00-00-00.000000` matches the fixed-width pattern (the regex
only checks digit counts), but `strptime` then raises `ValueError` on
month 13 — `parse` throws rather than returning "not a snapshot". -/
theorem c3_parse_totality_counterexample :
    parseDest "2015-13-01_00-00-00.000000" "/backups" = .threw ∧
    parseDest "2015-13-01_00-00-00.000000" "/backups" ≠ .notSnapshot := by
  constructor
  · decide
  · decide

/-- Claim C3 as amended: `parse` returns "not a snapshot" (without
throwing) exactly for the strings the regex rejects; on strings the regex
accepts it can still throw, and it does so only when `strptime` raises on
the matched time group (e.g. month 13, or a separator other than `.` let
through by the unescaped regex dot). -/
theorem c3_parse_totality_amended :
    (∀ s root : String, matchSnapshotName s.data = none →
      parseDest s root = .notSnapshot) ∧
    (∀ s root : String, parseDest s root = .threw →
      ∃ g b, matchSnapshotName s.data = some (g, b) ∧ strptimeGroup g = .error ()) := by
  constructor
  · intro s root h
    unfold parseDest
    rw [h]
  · intro s root h
    unfold parseDest at h
    cases hm : matchSnapshotName s.data with
    | none => simp [hm] at h
    | some gb =>
      obtain ⟨g, b⟩ := gb
      simp only [hm] at h
      cases hs : strptimeGroup g with
      | error e =>
        cases e
        exact ⟨g, b, rfl, hs⟩
      | ok t => simp [hs] at h

/-- Witness for the amended C3 at the concrete non-matching name `junk`. -/
theorem c3_parse_totality_amended_witness :
    matchSnapshotName ("junk" : String).data = none ∧
    parseDest "junk" "/backups" = .notSnapshot :=
  ⟨by decide, c3_parse_totality_amended.1 "junk" "/backups" (by decide)⟩

/-- Claim C5: completing a Partial snapshot fails with the
data-integrity error when the Partial-named entry is absent (or not a
directory), and otherwise performs exactly one rename — from the
Partial-named path to the Complete-named path — as its sole on-disk
mutation: every other entry of the listing is left in place. -/
theorem c5_complete_rename (fs : List (String × Bool)) (d : Dest)
    (_hpart : d.is_complete = false) :
    (fsHasDir fs d.dirname = false → completeDest fs d = .error ()) ∧
    (fsHasDir fs d.dirname = true →
      completeDest fs d =
        .ok (fsRename fs d.dirname (getDirname d.time none),
          [FsOp.rename (osPathJoin d.root d.dirname)
            (osPathJoin d.root (getDirname d.time none))]) ∧
      (∀ e ∈ fs, e.1 ≠ d.dirname →
        e ∈ fsRename fs d.dirname (getDirname d.time none)) ∧
      (fsRename fs d.dirname (getDirname d.time none)).length = fs.length) := by
  refine ⟨fun h => ?_, fun h => ⟨?_, fun e he hne => ?_, ?_⟩⟩
  · simp [completeDest, h]
  · simp [completeDest, h]
  · unfold fsRename
    rw [List.mem_map]
    exact ⟨e, he, by simp [hne]⟩
  · exact List.length_map fs _

/-- Witness for C5: one Partial directory present; the completion renames
exactly it. -/
theorem c5_complete_rename_witness :
    (Dest.mk "2015-01-02_03-04-05.000006.partial" "/b" ⟨2015, 1, 2, 3, 4, 5, 6⟩
        false).is_complete = false ∧
    fsHasDir [("2015-01-02_03-04-05.000006.partial", true)]
      (Dest.mk "2015-01-02_03-04-05.000006.partial" "/b" ⟨2015, 1, 2, 3, 4, 5, 6⟩
        false).dirname = true ∧
    (completeDest [("2015-01-02_03-04-05.000006.partial", true)]
        (Dest.mk "2015-01-02_03-04-05.000006.partial" "/b"
          ⟨2015, 1, 2, 3, 4, 5, 6⟩ false) =
      .ok (fsRename [("2015-01-02_03-04-05.000006.partial", true)]
            "2015-01-02_03-04-05.000006.partial"
            (getDirname ⟨2015, 1, 2, 3, 4, 5, 6⟩ none),
        [FsOp.rename (osPathJoin "/b" "2015-01-02_03-04-05.000006.partial")
          (osPathJoin "/b" (getDirname ⟨2015, 1, 2, 3, 4, 5, 6⟩ none))]) ∧
      (∀ e ∈ [("2015-01-02_03-04-05.000006.partial", true)],
        e.1 ≠ "2015-01-02_03-04-05.000006.partial" →
        e ∈ fsRename [("2015-01-02_03-04-05.000006.partial", true)]
          "2015-01-02_03-04-05.000006.partial"
          (getDirname ⟨2015, 1, 2, 3, 4, 5, 6⟩ none)) ∧
      (fsRename [("2015-01-02_03-04-05.000006.partial", true)]
        "2015-01-02_03-04-05.000006.partial"
        (getDirname ⟨2015, 1, 2, 3, 4, 5, 6⟩ none)).length =
        [("2015-01-02_03-04-05.000006.partial", true)].length) :=
  ⟨rfl, by decide,
    (c5_complete_rename [("2015-01-02_03-04-05.000006.partial", true)]
      (Dest.mk "2015-01-02_03-04-05.000006.partial" "/b"
        ⟨2015, 1, 2, 3, 4, 5, 6⟩ false) rfl).2 (by decide)⟩

/-- Claim C9: when the given name does not parse as a snapshot name, the
mark-completed service action returns exit code 1 and performs no
filesystem mutation (no rename is attempted). -/
theorem c9_mark_completed_reject (fs : List (String × Bool)) (root name : String)
    (ds : List Dest) (hinit : initDests fs root = .ok ds)
    (hrej : parseDest name root = .notSnapshot) :
    serviceMarkCompleted fs root name = .ok (1, []) := by
  unfold serviceMarkCompleted
  rw [hinit, except_ok_bind]
  simp [hrej]

/-- Witness for C9 on an empty repository and the name `junk`. -/
theorem c9_mark_completed_reject_witness :
    initDests [] "/backups" = .ok [] ∧
    parseDest "junk" "/backups" = .notSnapshot ∧
    serviceMarkCompleted [] "/backups" "junk" = .ok (1, []) :=
  ⟨rfl, by decide,
    c9_mark_completed_reject [] "/backups" "junk" [] rfl (by decide)⟩

/-- Claim C10: the Partial-state name is the Complete-state name followed
by the literal suffix `.partial`; consequently, completing the snapshot
created by a backup run renames the directory from
`<timestamp>.partial` to exactly `<timestamp>` — the suffix removed and
the timestamp portion unchanged. -/
theorem c10_marker_suffix :
    (∀ t : Datetime, getDirname t (some "partial") = getDirname t none ++ ".partial") ∧
    (∀ (t : Datetime) (root : String) (fs : List (String × Bool)),
      fsHasDir fs (destNew t root).dirname = true →
      completeDest fs (destNew t root) =
        .ok (fsRename fs (getDirname t none ++ ".partial") (getDirname t none),
          [FsOp.rename (osPathJoin root (getDirname t none ++ ".partial"))
            (osPathJoin root (getDirname t none))])) := by
  have key : ∀ t : Datetime,
      getDirname t (some "partial") = getDirname t none ++ ".partial" := by
    intro t
    apply String.ext
    rw [String.data_append, getDirname_marker_data, getDirname_none_data]
    rfl
  refine ⟨key, fun t root fs h => ?_⟩
  unfold completeDest
  rw [if_pos h]
  simp only [destNew, key t]

/-- Witness for C10 at the concrete timestamp 2015-01-02 03:04:05.000006. -/
theorem c10_marker_suffix_witness :
    getDirname ⟨2015, 1, 2, 3, 4, 5, 6⟩ (some "partial") =
      getDirname ⟨2015, 1, 2, 3, 4, 5, 6⟩ none ++ ".partial" ∧
    fsHasDir [("2015-01-02_03-04-05.000006.partial", true)]
      (destNew ⟨2015, 1, 2, 3, 4, 5, 6⟩ "/b").dirname = true ∧
    completeDest [("2015-01-02_03-04-05.000006.partial", true)]
        (destNew ⟨2015, 1, 2, 3, 4, 5, 6⟩ "/b") =
      .ok (fsRename [("2015-01-02_03-04-05.000006.partial", true)]
            (getDirname ⟨2015, 1, 2, 3, 4, 5, 6⟩ none ++ ".partial")
            (getDirname ⟨2015, 1, 2, 3, 4, 5, 6⟩ none),
        [FsOp.rename
          (osPathJoin "/b" (getDirname ⟨2015, 1, 2, 3, 4, 5, 6⟩ none ++ ".partial"))
          (osPathJoin "/b" (getDirname ⟨2015, 1, 2, 3, 4, 5, 6⟩ none))]) :=
  ⟨c10_marker_suffix.1 _, by decide,
    c10_marker_suffix.2 ⟨2015, 1, 2, 3, 4, 5, 6⟩ "/b"
      [("2015-01-02_03-04-05.000006.partial", true)] (by decide)⟩

theorem natListLe_refl : ∀ l : List Nat, natListLe l l = true := by
  intro l
  induction l with
  | nil => rfl
  | cons a as ih => simp [natListLe, ih]

theorem natListLe_total : ∀ a b : List Nat, natListLe a b = true ∨ natListLe b a = true := by
  intro a
  induction a with
  | nil => intro b; left; rfl
  | cons x as ih =>
    intro b
    cases b with
    | nil => right; rfl
    | cons y bs =>
      rcases Nat.lt_trichotomy x y with h | h | h
      · left; simp [natListLe, h]
      · subst h
        rcases ih bs with hl | hr
        · left; simp [natListLe, hl]
        · right; simp [natListLe, hr]
      · right; simp [natListLe, h]

theorem natListLe_trans : ∀ a b c : List Nat,
    natListLe a b = true → natListLe b c = true → natListLe a c = true := by
  intro a
  induction a with
  | nil => intro b c _ _; rfl
  | cons x as ih =>
    intro b c hab hbc
    cases b with
    | nil => simp [natListLe] at hab
    | cons y bs =>
      cases c with
      | nil => simp [natListLe] at hbc
      | cons z cs =>
        simp only [natListLe, Bool.or_eq_true, Bool.and_eq_true, decide_eq_true_eq,
          beq_iff_eq] at hab hbc ⊢
        rcases hab with h1 | ⟨h1, h1r⟩ <;> rcases hbc with h2 | ⟨h2, h2r⟩
        · left; omega
        · left; omega
        · left; omega
        · right; exact ⟨by omega, ih bs cs h1r h2r⟩

instance : IsTotal Dest destGE :=
  ⟨fun a b => by
    unfold destGE Datetime.le
    rcases natListLe_total b.time.fields a.time.fields with h | h
    · exact Or.inl h
    · exact Or.inr h⟩

instance : IsTrans Dest destGE :=
  ⟨fun a b c hab hbc => by
    unfold destGE Datetime.le at *
    exact natListLe_trans _ _ _ hbc hab⟩

/-- Bind on an `error` value reduces. -/
theorem except_error_bind {ε α β : Type} (e : ε) (f : α → Except ε β) :
    (Except.error e : Except ε α) >>= f = .error e := rfl

/-- A successful local enumeration returns exactly the successful parses of
the directory children, in listing order. -/
theorem parseChildren_ok_eq (root : String) : ∀ (names : List String) (ds : List Dest),
    parseChildren root names = .ok ds → ds = names.filterMap (parseOpt root) := by
  intro names
  induction names with
  | nil =>
    intro ds h
    unfold parseChildren at h
    cases h
    rfl
  | cons e es ih =>
    intro ds h
    unfold parseChildren at h
    rw [List.filterMap_cons]
    cases hp : parseDest e root with
    | threw => rw [hp] at h; cases h
    | notSnapshot =>
      rw [hp] at h
      simp only [parseOpt, hp]
      exact ih ds h
    | parsed d =>
      rw [hp] at h
      cases hrec : parseChildren root es with
      | error e2 => rw [hrec] at h; simp [Except.map] at h
      | ok ds2 =>
        rw [hrec] at h
        simp only [Except.map, Except.ok.injEq] at h
        rw [← h, parseOpt, hp, ih ds2 hrec]

/-- A successful remote enumeration returns the raw parse results of every
`info` line — `none` included. -/
theorem remoteListPrevious_ok_eq (root : String) :
    ∀ (lines : List String) (l : List (Option Dest)),
    remoteListPrevious root lines = .ok l → l = lines.map (parseOpt root) := by
  intro lines
  induction lines with
  | nil =>
    intro l h
    unfold remoteListPrevious at h
    cases h
    rfl
  | cons line rest ih =>
    intro l h
    unfold remoteListPrevious at h
    rw [List.map_cons]
    cases hp : parseDest line root with
    | threw => rw [hp] at h; cases h
    | notSnapshot =>
      rw [hp] at h
      cases hrec : remoteListPrevious root rest with
      | error e2 => rw [hrec] at h; simp [Except.map] at h
      | ok l2 =>
        rw [hrec] at h
        simp only [Except.map, Except.ok.injEq] at h
        rw [← h, parseOpt, hp, ih l2 hrec]
    | parsed d =>
      rw [hp] at h
      cases hrec : remoteListPrevious root rest with
      | error e2 => rw [hrec] at h; simp [Except.map] at h
      | ok l2 =>
        rw [hrec] at h
        simp only [Except.map, Except.ok.injEq] at h
        rw [← h, parseOpt, hp, ih l2 hrec]

/-- Claim C6: for every repository state and every order in which the
filesystem lists the entries under the root, a successful enumeration
returns the parsed snapshots sorted by timestamp descending — the result
is sorted under `destGE` and is a permutation of the successful parses. -/
theorem c6_enumeration_sorted (fs : List (String × Bool)) (root : String)
    (ds : List Dest) (h : initDests fs root = .ok ds) :
    List.Sorted destGE ds ∧ ds.Perm (okParses fs root) := by
  unfold initDests at h
  cases hl : localListPrevious fs root with
  | error e => rw [hl] at h; simp [Except.map] at h
  | ok l =>
    rw [hl] at h
    simp only [Except.map, Except.ok.injEq] at h
    have hds : ds = l.insertionSort destGE := h.symm
    subst hds
    refine ⟨List.sorted_insertionSort destGE l, ?_⟩
    have hl2 : l = okParses fs root :=
      parseChildren_ok_eq root (dirChildren fs) l hl
    rw [← hl2]
    exact List.perm_insertionSort destGE l

/-- Witness for C6 on a listing holding two snapshots (out of timestamp
order) plus a junk directory and a plain file. -/
theorem c6_enumeration_sorted_witness :
    initDests
      [("2015-01-02_03-04-05.000001", true), ("junk", true), ("notes.txt", false),
       ("2016-06-07_08-09-10.000002.partial", true)] "/b" =
      .ok [⟨"2016-06-07_08-09-10.000002.partial", "/b", ⟨2016, 6, 7, 8, 9, 10, 2⟩, false⟩,
           ⟨"2015-01-02_03-04-05.000001", "/b", ⟨2015, 1, 2, 3, 4, 5, 1⟩, true⟩] ∧
    (List.Sorted destGE
      [⟨"2016-06-07_08-09-10.000002.partial", "/b", ⟨2016, 6, 7, 8, 9, 10, 2⟩, false⟩,
       ⟨"2015-01-02_03-04-05.000001", "/b", ⟨2015, 1, 2, 3, 4, 5, 1⟩, true⟩] ∧
     List.Perm
      [⟨"2016-06-07_08-09-10.000002.partial", "/b", ⟨2016, 6, 7, 8, 9, 10, 2⟩, false⟩,
       ⟨"2015-01-02_03-04-05.000001", "/b", ⟨2015, 1, 2, 3, 4, 5, 1⟩, true⟩]
      (okParses
        [("2015-01-02_03-04-05.000001", true), ("junk", true), ("notes.txt", false),
         ("2016-06-07_08-09-10.000002.partial", true)] "/b")) :=
  ⟨rfl, c6_enumeration_sorted
    [("2015-01-02_03-04-05.000001", true), ("junk", true), ("notes.txt", false),
     ("2016-06-07_08-09-10.000002.partial", true)] "/b"
    [⟨"2016-06-07_08-09-10.000002.partial", "/b", ⟨2016, 6, 7, 8, 9, 10, 2⟩, false⟩,
     ⟨"2015-01-02_03-04-05.000001", "/b", ⟨2015, 1, 2, 3, 4, 5, 1⟩, true⟩] rfl⟩

/-- Claim C7 counterexample: yarsnap's `BackupAction` performs no
rejection of a user-supplied `--link-dest` rsync argument — the backup
proceeds and the option reaches the spawned transfer command (here on an
empty repository, so alongside no orchestrator directive; no
ConfigurationError is raised before spawning). -/
theorem c7_reject_linkdest_counterexample :
    startsWithLinkDest "--link-dest=/evil" = true ∧
    yarsnapBackupAction [] "/b" ["/src"] ["--link-dest=/evil"] ⟨2015, 1, 2, 3, 4, 5, 6⟩ =
      .ok ["/src", "/b/2015-01-02_03-04-05.000006.partial", "--link-dest=/evil"] :=
  ⟨by decide, rfl⟩

/-- Claim C7 as amended: rsnap2's `BackupAction` rejects any rsync
argument starting with `--link-dest` with a `ValueError` before the
backuper is constructed and before any process is spawned; yarsnap's
`BackupAction` performs no such check, and every user-supplied rsync
argument — a conflicting `--link-dest` included — is passed into the
transfer command it spawns. -/
theorem c7_reject_linkdest_amended :
    (∀ (fs : List (String × Bool)) (root : String) (sources rsyncArgs : List String)
        (t : Datetime), rsyncArgs.any startsWithLinkDest = true →
      rsnap2BackupAction fs root sources rsyncArgs t = .error ()) ∧
    (∀ (fs : List (String × Bool)) (root : String) (sources rsyncArgs : List String)
        (t : Datetime) (cmd : List String),
      yarsnapBackupAction fs root sources rsyncArgs t = .ok cmd →
      ∀ a ∈ rsyncArgs, a ∈ cmd) := by
  constructor
  · intro fs root sources rsyncArgs t h
    unfold rsnap2BackupAction
    rw [if_pos h]
  · intro fs root sources rsyncArgs t cmd h a ha
    unfold yarsnapBackupAction at h
    cases hi : initDests fs root with
    | error e => rw [hi, except_error_bind] at h; cases h
    | ok ds =>
      rw [hi, except_ok_bind] at h
      simp only [Except.ok.injEq] at h
      rw [← h]
      unfold yarsnapBackupCmd
      simp only [List.append_assoc, List.mem_append]
      right; right; right
      exact ha

/-- Witness for the amended C7: rsnap2 rejects before anything runs. -/
theorem c7_reject_linkdest_amended_witness :
    ([("x", true)] : List (String × Bool)) = [("x", true)] ∧
    (["--link-dest=/evil"] : List String).any startsWithLinkDest = true ∧
    rsnap2BackupAction [("x", true)] "/b" ["/src"] ["--link-dest=/evil"]
      ⟨2015, 1, 2, 3, 4, 5, 6⟩ = .error () :=
  ⟨rfl, by decide,
    c7_reject_linkdest_amended.1 [("x", true)] "/b" ["/src"] ["--link-dest=/evil"]
      ⟨2015, 1, 2, 3, 4, 5, 6⟩ (by decide)⟩

/-- Claim C8 counterexample: a remote `info` line that does not parse is
not skipped — the Remote enumeration returns a sequence containing `None`,
and the subsequent sort in the backuper constructor then raises
(`attrgetter("time")` on `None`). -/
theorem c8_skip_unparsed_counterexample :
    remoteListPrevious "/b" ["not-a-snapshot"] = .ok [none] ∧
    (none : Option Dest) ∈ [(none : Option Dest)] ∧
    initDestsRemote ["not-a-snapshot"] "/b" = .error () :=
  ⟨rfl, List.mem_singleton_self none, rfl⟩

/-- Claim C8 as amended: the Local enumeration does skip every
non-parsing entry — a successful listing is exactly the successful parses
of the directory children; the Remote enumeration instead appends the raw
parse result of every `info` line, `None` placeholders included. -/
theorem c8_skip_unparsed_amended :
    (∀ (fs : List (String × Bool)) (root : String) (ds : List Dest),
      localListPrevious fs root = .ok ds → ds = okParses fs root) ∧
    (∀ (root : String) (lines : List String) (l : List (Option Dest)),
      remoteListPrevious root lines = .ok l → l = lines.map (parseOpt root)) := by
  constructor
  · intro fs root ds h
    exact parseChildren_ok_eq root (dirChildren fs) ds h
  · intro root lines l h
    exact remoteListPrevious_ok_eq root lines l h

/-- Witness for the amended C8 on a listing with one junk directory. -/
theorem c8_skip_unparsed_amended_witness :
    localListPrevious [("junk", true), ("2015-01-02_03-04-05.000001", true)] "/b" =
      .ok [⟨"2015-01-02_03-04-05.000001", "/b", ⟨2015, 1, 2, 3, 4, 5, 1⟩, true⟩] ∧
    ([⟨"2015-01-02_03-04-05.000001", "/b", ⟨2015, 1, 2, 3, 4, 5, 1⟩, true⟩] : List Dest) =
      okParses [("junk", true), ("2015-01-02_03-04-05.000001", true)] "/b" :=
  ⟨rfl, c8_skip_unparsed_amended.1
    [("junk", true), ("2015-01-02_03-04-05.000001", true)] "/b"
    [⟨"2015-01-02_03-04-05.000001", "/b", ⟨2015, 1, 2, 3, 4, 5, 1⟩, true⟩] rfl⟩

/-- The datetime order is reflexive. -/
theorem datetimeLe_refl (t : Datetime) : Datetime.le t t = true := natListLe_refl _

/-- On a descending-sorted list, `find?` of the completion flag returns a
Complete element whose timestamp dominates every Complete element. -/
theorem find?_first_complete : ∀ (dests : List Dest),
    List.Pairwise destGE dests →
    ∀ p, dests.find? (fun x => x.is_complete) = some p →
    p.is_complete = true ∧ p ∈ dests ∧
      ∀ x ∈ dests, x.is_complete = true → Datetime.le x.time p.time = true := by
  intro dests
  induction dests with
  | nil => intro _ p hf; cases hf
  | cons a l ih =>
    intro hpw p hf
    rw [List.pairwise_cons] at hpw
    cases hca : a.is_complete with
    | true =>
      simp only [List.find?, hca] at hf
      cases hf
      refine ⟨hca, List.mem_cons_self a l, fun x hx hxc => ?_⟩
      rcases List.mem_cons.mp hx with rfl | hx
      · exact datetimeLe_refl _
      · exact hpw.1 x hx
    | false =>
      simp only [List.find?, hca] at hf
      obtain ⟨h1, h2, h3⟩ := ih hpw.2 p hf
      refine ⟨h1, List.mem_cons_of_mem a h2, fun x hx hxc => ?_⟩
      rcases List.mem_cons.mp hx with rfl | hx
      · rw [hca] at hxc; cases hxc
      · exact h3 x hx hxc

/-- Claim C1: under the conditions of a real backup run (enumeration
yields a descending-sorted list, no source/user argument is itself the
directive token, and no snapshot path equals it), the transfer command
contains `--link-dest` exactly once — referencing the path of the most
recent Complete snapshot — whenever a Complete snapshot exists, and not at
all when no Complete snapshot exists; a Partial snapshot is never the
base.  Both the rsnap2 and yarsnap command layouts are covered. -/
theorem c1_dedup_base_directive (dests : List Dest) (sources rsyncArgs : List String)
    (destPath : String)
    (hsorted : List.Pairwise destGE dests)
    (hsrc : "--link-dest" ∉ sources)
    (hargs : ∀ a ∈ rsyncArgs, startsWithLinkDest a = false)
    (hdp : destPath ≠ "--link-dest")
    (hpaths : ∀ x ∈ dests, x.path ≠ "--link-dest") :
    ((∃ x ∈ dests, x.is_complete = true) →
      ∃ p, dests.find? (fun x => x.is_complete) = some p ∧
        p.is_complete = true ∧
        (∀ x ∈ dests, x.is_complete = true → Datetime.le x.time p.time = true) ∧
        rsnap2BackupCmd dests sources rsyncArgs destPath =
          sources ++ [destPath] ++ rsyncArgs ++ ["--link-dest", p.path] ∧
        List.count "--link-dest" (rsnap2BackupCmd dests sources rsyncArgs destPath) = 1 ∧
        yarsnapBackupCmd dests sources rsyncArgs destPath =
          sources ++ [destPath] ++ ["--link-dest", p.path] ++ rsyncArgs ∧
        List.count "--link-dest" (yarsnapBackupCmd dests sources rsyncArgs destPath) = 1) ∧
    ((∀ x ∈ dests, x.is_complete = false) →
      rsnap2BackupCmd dests sources rsyncArgs destPath =
        sources ++ [destPath] ++ rsyncArgs ∧
      List.count "--link-dest" (rsnap2BackupCmd dests sources rsyncArgs destPath) = 0 ∧
      yarsnapBackupCmd dests sources rsyncArgs destPath =
        sources ++ [destPath] ++ rsyncArgs ∧
      List.count "--link-dest" (yarsnapBackupCmd dests sources rsyncArgs destPath) = 0) := by
  have hc_src : List.count "--link-dest" sources = 0 := List.count_eq_zero.mpr hsrc
  have hc_dp : List.count "--link-dest" [destPath] = 0 := by
    simp [List.count_cons, hdp]
  have hnotin_args : "--link-dest" ∉ rsyncArgs := by
    intro hmem
    have h1 := hargs _ hmem
    have h2 : startsWithLinkDest "--link-dest" = true := by decide
    rw [h1] at h2
    cases h2
  have hc_args : List.count "--link-dest" rsyncArgs = 0 :=
    List.count_eq_zero.mpr hnotin_args
  constructor
  · rintro ⟨x, hx, hxc⟩
    have hlen : 0 < dests.length := List.length_pos.mpr (List.ne_nil_of_mem hx)
    have hsome : (dests.find? (fun x => x.is_complete)).isSome :=
      List.find?_isSome.mpr ⟨x, hx, hxc⟩
    obtain ⟨p, hp⟩ := Option.isSome_iff_exists.mp hsome
    obtain ⟨hpc, hpmem, hpmax⟩ := find?_first_complete dests hsorted p hp
    have hppath : p.path ≠ "--link-dest" := hpaths p hpmem
    have hcmd_r : rsnap2BackupCmd dests sources rsyncArgs destPath =
        sources ++ [destPath] ++ rsyncArgs ++ ["--link-dest", p.path] := by
      simp only [rsnap2BackupCmd]
      rw [if_pos hlen, hp]
    have hcmd_y : yarsnapBackupCmd dests sources rsyncArgs destPath =
        sources ++ [destPath] ++ ["--link-dest", p.path] ++ rsyncArgs := by
      simp only [yarsnapBackupCmd]
      rw [if_pos hlen, hp]
    refine ⟨p, hp, hpc, hpmax, hcmd_r, ?_, hcmd_y, ?_⟩
    · rw [hcmd_r]
      simp [List.count_append, List.count_cons, hc_src, hc_args, hdp, hppath]
    · rw [hcmd_y]
      simp [List.count_append, List.count_cons, hc_src, hc_args, hdp, hppath]
  · intro hall
    have hprev : (if 0 < dests.length then dests.find? (fun x => x.is_complete)
        else none) = none := by
      split
      · exact List.find?_eq_none.mpr (fun x hx => by rw [hall x hx]; simp)
      · rfl
    have hcmd_r : rsnap2BackupCmd dests sources rsyncArgs destPath =
        sources ++ [destPath] ++ rsyncArgs := by
      simp only [rsnap2BackupCmd]
      rw [hprev]
      simp
    have hcmd_y : yarsnapBackupCmd dests sources rsyncArgs destPath =
        sources ++ [destPath] ++ rsyncArgs := by
      simp only [yarsnapBackupCmd]
      rw [hprev]
      simp
    refine ⟨hcmd_r, ?_, hcmd_y, ?_⟩
    · rw [hcmd_r]
      simp [List.count_append, List.count_cons, hc_src, hc_args, hdp]
    · rw [hcmd_y]
      simp [List.count_append, List.count_cons, hc_src, hc_args, hdp]

/-- Witness for C1: a Partial snapshot at 2016 and a Complete snapshot at
2015; the base is the Complete 2015 snapshot, not the newer Partial one. -/
theorem c1_dedup_base_directive_witness :
    ((∃ x ∈ [Dest.mk "2016-06-07_08-09-10.000002.partial" "/b" ⟨2016, 6, 7, 8, 9, 10, 2⟩ false,
              Dest.mk "2015-01-02_03-04-05.000001" "/b" ⟨2015, 1, 2, 3, 4, 5, 1⟩ true],
        x.is_complete = true) →
      ∃ p, List.find? (fun x => x.is_complete)
          [Dest.mk "2016-06-07_08-09-10.000002.partial" "/b" ⟨2016, 6, 7, 8, 9, 10, 2⟩ false,
           Dest.mk "2015-01-02_03-04-05.000001" "/b" ⟨2015, 1, 2, 3, 4, 5, 1⟩ true] = some p ∧
        p.is_complete = true ∧
        (∀ x ∈ [Dest.mk "2016-06-07_08-09-10.000002.partial" "/b" ⟨2016, 6, 7, 8, 9, 10, 2⟩ false,
                Dest.mk "2015-01-02_03-04-05.000001" "/b" ⟨2015, 1, 2, 3, 4, 5, 1⟩ true],
          x.is_complete = true → Datetime.le x.time p.time = true) ∧
        rsnap2BackupCmd
          [Dest.mk "2016-06-07_08-09-10.000002.partial" "/b" ⟨2016, 6, 7, 8, 9, 10, 2⟩ false,
           Dest.mk "2015-01-02_03-04-05.000001" "/b" ⟨2015, 1, 2, 3, 4, 5, 1⟩ true]
          ["/src"] ["-a", "-v"] "/b/new" =
          ["/src"] ++ ["/b/new"] ++ ["-a", "-v"] ++ ["--link-dest", p.path] ∧
        List.count "--link-dest" (rsnap2BackupCmd
          [Dest.mk "2016-06-07_08-09-10.000002.partial" "/b" ⟨2016, 6, 7, 8, 9, 10, 2⟩ false,
           Dest.mk "2015-01-02_03-04-05.000001" "/b" ⟨2015, 1, 2, 3, 4, 5, 1⟩ true]
          ["/src"] ["-a", "-v"] "/b/new") = 1 ∧
        yarsnapBackupCmd
          [Dest.mk "2016-06-07_08-09-10.000002.partial" "/b" ⟨2016, 6, 7, 8, 9, 10, 2⟩ false,
           Dest.mk "2015-01-02_03-04-05.000001" "/b" ⟨2015, 1, 2, 3, 4, 5, 1⟩ true]
          ["/src"] ["-a", "-v"] "/b/new" =
          ["/src"] ++ ["/b/new"] ++ ["--link-dest", p.path] ++ ["-a", "-v"] ∧
        List.count "--link-dest" (yarsnapBackupCmd
          [Dest.mk "2016-06-07_08-09-10.000002.partial" "/b" ⟨2016, 6, 7, 8, 9, 10, 2⟩ false,
           Dest.mk "2015-01-02_03-04-05.000001" "/b" ⟨2015, 1, 2, 3, 4, 5, 1⟩ true]
          ["/src"] ["-a", "-v"] "/b/new") = 1) ∧
    ((∀ x ∈ [Dest.mk "2016-06-07_08-09-10.000002.partial" "/b" ⟨2016, 6, 7, 8, 9, 10, 2⟩ false,
             Dest.mk "2015-01-02_03-04-05.000001" "/b" ⟨2015, 1, 2, 3, 4, 5, 1⟩ true],
        x.is_complete = false) →
      rsnap2BackupCmd
        [Dest.mk "2016-06-07_08-09-10.000002.partial" "/b" ⟨2016, 6, 7, 8, 9, 10, 2⟩ false,
         Dest.mk "2015-01-02_03-04-05.000001" "/b" ⟨2015, 1, 2, 3, 4, 5, 1⟩ true]
        ["/src"] ["-a", "-v"] "/b/new" = ["/src"] ++ ["/b/new"] ++ ["-a", "-v"] ∧
      List.count "--link-dest" (rsnap2BackupCmd
        [Dest.mk "2016-06-07_08-09-10.000002.partial" "/b" ⟨2016, 6, 7, 8, 9, 10, 2⟩ false,
         Dest.mk "2015-01-02_03-04-05.000001" "/b" ⟨2015, 1, 2, 3, 4, 5, 1⟩ true]
        ["/src"] ["-a", "-v"] "/b/new") = 0 ∧
      yarsnapBackupCmd
        [Dest.mk "2016-06-07_08-09-10.000002.partial" "/b" ⟨2016, 6, 7, 8, 9, 10, 2⟩ false,
         Dest.mk "2015-01-02_03-04-05.000001" "/b" ⟨2015, 1, 2, 3, 4, 5, 1⟩ true]
        ["/src"] ["-a", "-v"] "/b/new" = ["/src"] ++ ["/b/new"] ++ ["-a", "-v"] ∧
      List.count "--link-dest" (yarsnapBackupCmd
        [Dest.mk "2016-06-07_08-09-10.000002.partial" "/b" ⟨2016, 6, 7, 8, 9, 10, 2⟩ false,
         Dest.mk "2015-01-02_03-04-05.000001" "/b" ⟨2015, 1, 2, 3, 4, 5, 1⟩ true]
        ["/src"] ["-a", "-v"] "/b/new") = 0) :=
  c1_dedup_base_directive
    [Dest.mk "2016-06-07_08-09-10.000002.partial" "/b" ⟨2016, 6, 7, 8, 9, 10, 2⟩ false,
     Dest.mk "2015-01-02_03-04-05.000001" "/b" ⟨2015, 1, 2, 3, 4, 5, 1⟩ true]
    ["/src"] ["-a", "-v"] "/b/new" (by decide) (by decide) (by decide) (by decide)
    (by decide)

/-- A `pipes.quote` safe character is not whitespace, not a quote, and not
a shell metacharacter. -/
theorem safe_not_special {c : Char} (h : safeChar c = true) :
    c ≠ ' ' ∧ c ≠ '\t' ∧ c ≠ squote ∧ c ≠ dquote ∧ isShellMeta c = false := by
  refine ⟨?_, ?_, ?_, ?_, ?_⟩
  · intro e; rw [e] at h; exact absurd h (by decide)
  · intro e; rw [e] at h; exact absurd h (by decide)
  · intro e; rw [e] at h; exact absurd h (by decide)
  · intro e; rw [e] at h; exact absurd h (by decide)
  · by_contra hm
    rw [Bool.not_eq_false] at hm
    simp only [isShellMeta, Bool.or_eq_true, beq_iff_eq, or_assoc] at hm
    rcases hm with rfl | rfl | rfl | rfl | rfl | rfl | rfl | rfl | rfl | rfl | rfl |
      rfl | rfl | rfl | rfl | rfl <;> exact absurd h (by decide)

/-- The shell scanner accumulates a safe character into the current word. -/
theorem shSplitGo_safe_step {c : Char} (h : safeChar c = true)
    (cs cur : List Char) (inw : Bool) (acc : List String) :
    shSplitGo (c :: cs) .norm cur inw acc = shSplitGo cs .norm (c :: cur) true acc := by
  obtain ⟨h1, h2, h3, h4, h5⟩ := safe_not_special h
  simp [shSplitGo, h1, h2, h3, h4, h5]

/-- Inside single quotes every character except the closing quote is
accumulated literally. -/
theorem shSplitGo_single_step {c : Char} (h : c ≠ squote)
    (cs cur : List Char) (inw : Bool) (acc : List String) :
    shSplitGo (c :: cs) .insingle cur inw acc =
      shSplitGo cs .insingle (c :: cur) true acc := by
  simp [shSplitGo, h]

/-- The five-character rendering `'"'"'` of an embedded single quote
puts exactly one single-quote character into the current word and returns
the scanner to single-quote mode. -/
theorem shSplitGo_gadget (tl cur : List Char) (inw : Bool) (acc : List String) :
    shSplitGo (squote :: dquote :: squote :: dquote :: squote :: tl) .insingle cur inw acc =
      shSplitGo tl .insingle (squote :: cur) true acc := rfl

/-- An unquoted space terminates the current word. -/
theorem shSplitGo_space (tl cur : List Char) (acc : List String) :
    shSplitGo (' ' :: tl) .norm cur true acc =
      shSplitGo tl .norm [] false (acc ++ [String.mk cur.reverse]) := rfl

/-- An opening single quote switches the scanner into single-quote mode. -/
theorem shSplitGo_enter_single (tl cur : List Char) (inw : Bool) (acc : List String) :
    shSplitGo (squote :: tl) .norm cur inw acc = shSplitGo tl .insingle cur true acc := rfl

/-- A closing single quote returns the scanner to normal mode. -/
theorem shSplitGo_exit_single (tl cur : List Char) (inw : Bool) (acc : List String) :
    shSplitGo (squote :: tl) .insingle cur inw acc = shSplitGo tl .norm cur true acc := rfl

/-- A run of safe characters is accumulated verbatim. -/
theorem shSplitGo_safe_run : ∀ (l : List Char), l.all safeChar = true →
    ∀ (cs cur : List Char) (acc : List String),
    shSplitGo (l ++ cs) .norm cur true acc =
      shSplitGo cs .norm (l.reverse ++ cur) true acc := by
  intro l
  induction l with
  | nil => intro _ cs cur acc; simp
  | cons c l ih =>
    intro hall cs cur acc
    rw [List.all_cons, Bool.and_eq_true] at hall
    rw [List.cons_append, shSplitGo_safe_step hall.1, ih hall.2]
    simp [List.append_assoc]

/-- The quoted body produced by `pipes.quote` is accumulated verbatim by
the shell scanner. -/
theorem shSplitGo_inner_run : ∀ (l cs cur : List Char) (acc : List String),
    shSplitGo (quoteInner l ++ cs) .insingle cur true acc =
      shSplitGo cs .insingle (l.reverse ++ cur) true acc := by
  intro l
  induction l with
  | nil => intro cs cur acc; simp [quoteInner]
  | cons c l ih =>
    intro cs cur acc
    by_cases hc : c = squote
    · subst hc
      rw [show quoteInner (squote :: l) =
          squote :: dquote :: squote :: dquote :: squote :: quoteInner l from by
        simp [quoteInner]]
      rw [List.cons_append, List.cons_append, List.cons_append, List.cons_append,
        List.cons_append, shSplitGo_gadget, ih]
      simp
    · rw [show quoteInner (c :: l) = c :: quoteInner l from by simp [quoteInner, hc]]
      rw [List.cons_append, shSplitGo_single_step hc, ih]
      simp

/-- Scanning one `pipes.quote`-quoted argument yields exactly the original
argument as the current word. -/
theorem shSplitGo_quote (a : String) (cs : List Char) (acc : List String) :
    shSplitGo ((shellQuote a).data ++ cs) .norm [] false acc =
      shSplitGo cs .norm a.data.reverse true acc := by
  unfold shellQuote
  by_cases he : a.data = []
  · rw [if_pos he, he]
    rfl
  · rw [if_neg he]
    by_cases hsafe : a.data.all safeChar = true
    · rw [if_pos hsafe]
      obtain ⟨c, l, hd⟩ : ∃ c l, a.data = c :: l := by
        cases hcd : a.data with
        | nil => exact absurd hcd he
        | cons c l => exact ⟨c, l, rfl⟩
      rw [hd] at hsafe ⊢
      rw [List.all_cons, Bool.and_eq_true] at hsafe
      rw [List.cons_append, shSplitGo_safe_step hsafe.1, shSplitGo_safe_run l hsafe.2]
      simp
    · rw [if_neg hsafe]
      show shSplitGo ((squote :: (quoteInner a.data ++ [squote])) ++ cs) .norm [] false acc = _
      rw [List.cons_append, shSplitGo_enter_single, List.append_assoc,
        shSplitGo_inner_run, List.singleton_append, shSplitGo_exit_single]
      simp

/-- Scanning the space-join of quoted arguments yields exactly the
original argument list. -/
theorem shSplit_join : ∀ (args acc : List String),
    shSplitGo (joinWords (args.map shellQuote)).data .norm [] false acc =
      some (acc ++ args) := by
  intro args
  induction args with
  | nil => intro acc; simp [joinWords, shSplitGo]
  | cons a rest ih =>
    intro acc
    cases rest with
    | nil =>
      simp only [List.map_cons, List.map_nil, joinWords]
      have h := shSplitGo_quote a [] acc
      rw [List.append_nil] at h
      rw [h]
      show some (acc ++ [String.mk a.data.reverse.reverse]) = some (acc ++ [a])
      rw [List.reverse_reverse]
    | cons b rest2 =>
      simp only [List.map_cons, joinWords]
      rw [String.data_append, String.data_append, List.append_assoc]
      rw [shSplitGo_quote]
      rw [show (" " : String).data = [' '] from rfl, List.singleton_append,
        shSplitGo_space, List.reverse_reverse]
      rw [show String.mk a.data = a from rfl]
      rw [show (joinWords (shellQuote b :: List.map shellQuote rest2)) =
        joinWords ((b :: rest2).map shellQuote) from by simp]
      rw [ih (acc ++ [a])]
      simp

/-- Claim C4 as amended: yarsnap's remote bridge quotes every argument
with `pipes.quote`, and the resulting command line is re-interpreted by
the remote shell into exactly the intended argument values, for every
argument list — including arguments holding spaces, quotes, or shell
metacharacters, which therefore cannot inject arguments or commands.
(rsnap2's remote bridge does not quote; see the counterexample.) -/
theorem c4_remote_quoting_amended (cmd : List String) :
    shSplit (yarsnapRemoteArg cmd) = some cmd := by
  unfold shSplit yarsnapRemoteArg
  have h := shSplit_join cmd []
  simpa using h

/-- Claim C4 counterexample: rsnap2's remote bridge interpolates the
repository root unquoted into the remote command line, so a root holding
a space changes the argument vector the remote program receives (four
words instead of three), and a root holding `;` makes the remote shell
execute an injected command (the scan reports shell structure, `none`). -/
theorem c4_remote_quoting_counterexample :
    shSplit (rsnap2InfoRemoteCmd "rsnap2" "/backups/my dir") =
      some ["rsnap2", "info", "/backups/my", "dir"] ∧
    (["rsnap2", "info", "/backups/my", "dir"] : List String) ≠
      ["rsnap2", "info", "/backups/my dir"] ∧
    shSplit (rsnap2InfoRemoteCmd "rsnap2" "/b; rm -rf /x") = none := by
  refine ⟨by decide, by decide, by decide⟩
